import Mathlib

/-!
Shallow embedding of the `locust-love-django` repository pieces that the
claims concern: the SQL-header-profiling middleware
(`http_header_profiling_middleware/middleware.py`) and the query example
functions (`django_code_smells/examples_app/query_examples.py`,
`examples_app/utils.py`).

Machine conventions: SQL `time` fields and averages are rationals (Python
floats are exact here in spirit; overflow plays no role), database rows are
records in lists, a Python dict with insertion order is an association list,
and Python `sorted(key, reverse=True)` is the stable `List.mergeSort` with a
descending comparison.
-/

/-- Python's `sorted(l, key=key, reverse=True)`: a stable sort into
descending key order.  `List.insertionSort` is stable, so this agrees with
CPython's stable sort on every input. -/
def sortDescBy {α β : Type} [LinearOrder β] (key : α → β) (l : List α) :
    List α :=
  l.insertionSort (fun a b => key b ≤ key a)

theorem sortDescBy_perm {α β : Type} [LinearOrder β] (key : α → β)
    (l : List α) : List.Perm (sortDescBy key l) l :=
  List.perm_insertionSort _ _

theorem sortDescBy_length {α β : Type} [LinearOrder β] (key : α → β)
    (l : List α) : (sortDescBy key l).length = l.length :=
  (sortDescBy_perm key l).length_eq

theorem sortDescBy_sorted {α β : Type} [LinearOrder β] (key : α → β)
    (l : List α) :
    (sortDescBy key l).Sorted (fun a b => key b ≤ key a) := by
  haveI : IsTotal α (fun a b => key b ≤ key a) :=
    ⟨fun a b => le_total (key b) (key a)⟩
  haveI : IsTrans α (fun a b => key b ≤ key a) :=
    ⟨fun a b c h1 h2 => le_trans h2 h1⟩
  exact List.sorted_insertionSort _ _

namespace Middleware

/-- One record of `stats['sql']['queries']` as the middleware reads it. -/
structure QueryRecord where
  sql : String
  time : ℚ
  stacktrace : List String
  is_select : Bool
deriving DecidableEq

/-- The accumulated entry of `repeated_queries[sql]` in the middleware. -/
structure QueryGroup where
  count : ℕ
  total_time : ℚ
  stacktrace : List String
  is_select : Bool
deriving DecidableEq

/-- `SQL_NPLUS1_LIMIT` from middleware.py. -/
def SQL_NPLUS1_LIMIT : ℕ := 10

/-- `SQL_SLOW_LIMIT` from middleware.py. -/
def SQL_SLOW_LIMIT : ℕ := 5

/-- `HEADER_PREFIX` from middleware.py. -/
def HEADER_PREFIX : String := "DJ_TB_SQL"

/-- One step of the first loop of `process_response`: fold a query record
into the `repeated_queries` dict (an insertion-ordered association list). -/
def addQuery (acc : List (String × QueryGroup)) (q : QueryRecord) :
    List (String × QueryGroup) :=
  if (acc.lookup q.sql).isSome then
    acc.map (fun p =>
      if p.1 = q.sql then
        (p.1, ⟨p.2.count + 1, p.2.total_time + q.time,
               p.2.stacktrace ++ q.stacktrace, p.2.is_select⟩)
      else p)
  else
    acc ++ [(q.sql, ⟨1, q.time, q.stacktrace, q.is_select⟩)]

/-- The `repeated_queries` dict built by the first loop of
`process_response`. -/
def repeated_queries (qs : List QueryRecord) : List (String × QueryGroup) :=
  qs.foldl addQuery []

/-- `n_plus_one_queries`: the groups with `count > 1`. -/
def n_plus_one_queries (qs : List QueryRecord) : List (String × QueryGroup) :=
  (repeated_queries qs).filter (fun p => 1 < p.2.count)

/-- `sorted_n_plus_one_queries`: sort by count descending (stable, as
Python's `sorted` with `reverse=True`), truncated to `SQL_NPLUS1_LIMIT`. -/
def sorted_n_plus_one_queries (qs : List QueryRecord) :
    List (String × QueryGroup) :=
  (sortDescBy (fun p => p.2.count) (n_plus_one_queries qs)).take
    SQL_NPLUS1_LIMIT

/-- `slow_queries`: the query records sorted by `time` descending, truncated
to `SQL_SLOW_LIMIT`. -/
def slow_queries (qs : List QueryRecord) : List QueryRecord :=
  (sortDescBy (fun q => q.time) qs).take SQL_SLOW_LIMIT

/-- The header name `f"{HEADER_PREFIX}_NPLUS1_{i+1}_UUID"`. -/
def nplus1HeaderName (i : ℕ) : String :=
  HEADER_PREFIX ++ "_NPLUS1_" ++ toString (i + 1) ++ "_UUID"

/-- The header name `f"{HEADER_PREFIX}_SLOW_{i+1}_UUID"`. -/
def slowHeaderName (i : ℕ) : String :=
  HEADER_PREFIX ++ "_SLOW_" ++ toString (i + 1) ++ "_UUID"

/-- A Django HTTP response as the middleware touches it: a body and an
ordered list of headers. -/
structure HttpResponse where
  body : String
  headers : List (String × String)
deriving DecidableEq

/-- `response[header_name] = value`: overwrite the header in place if
present, else append it. -/
def setHeader (r : HttpResponse) (name value : String) : HttpResponse :=
  if (r.headers.lookup name).isSome then
    { r with
      headers := r.headers.map (fun p => if p.1 = name then (name, value) else p) }
  else
    { r with headers := r.headers ++ [(name, value)] }

/-- The `(header_name, uuid)` pairs the two logging loops of
`process_response` write, in emission order.  The uuid supply `uuids` is
consumed sequentially, one fresh value per header. -/
def addedHeaderPairs (qs : List QueryRecord) (uuids : ℕ → String) :
    List (String × String) :=
  ((sorted_n_plus_one_queries qs).enum.map
      (fun p => (nplus1HeaderName p.1, uuids p.1)))
    ++ ((slow_queries qs).enum.map
      (fun p => (slowHeaderName p.1,
                 uuids ((sorted_n_plus_one_queries qs).length + p.1))))

/-- `CustomDebugToolbarHeaderMiddleware.process_response`.  `hasToolbar`
models `hasattr(request, 'debug_toolbar')`; `qs` is the toolbar's
`stats['sql']['queries']` list; `uuids` the stream of `uuid.uuid4()`
strings. -/
def process_response (hasToolbar : Bool) (qs : List QueryRecord)
    (uuids : ℕ → String) (response : HttpResponse) : HttpResponse :=
  if hasToolbar then
    (addedHeaderPairs qs uuids).foldl (fun r p => setHeader r p.1 p.2) response
  else response

/-- A header name that starts with `HEADER_PREFIX`. -/
def sqlPrefixed (name : String) : Prop := ∃ t, name = HEADER_PREFIX ++ t

end Middleware

namespace Examples

/-! The data model of `examples_app/models.py`, restricted to the fields the
claims touch.  Primary keys are naturals; `Book.publisher` is nullable
(`null=True`), `Book.author` is not. -/

/-- A `Publisher` row. -/
structure PublisherRow where
  id : ℕ
  name : String
deriving DecidableEq

/-- An `Author` row. -/
structure AuthorRow where
  id : ℕ
  name : String
deriving DecidableEq

/-- A `Book` row. -/
structure BookRow where
  id : ℕ
  title : String
  author_id : ℕ
  publisher_id : Option ℕ
  publication_year : ℤ
deriving DecidableEq

/-- A database state: the three tables. -/
structure DB where
  publishers : List PublisherRow
  authors : List AuthorRow
  books : List BookRow
deriving DecidableEq

/-- `author.books.all()` (the reverse foreign key with
`related_name='books'`). -/
def booksOf (db : DB) (aid : ℕ) : List BookRow :=
  db.books.filter (fun b => b.author_id = aid)

/-- Referential integrity of `Book.author` (a non-null foreign key the
database enforces): every book's `author_id` matches an author row. -/
def BookAuthorsOk (db : DB) : Prop :=
  ∀ b ∈ db.books, ∃ a ∈ db.authors, a.id = b.author_id

/-- Referential integrity of `Book.publisher`: a non-null `publisher_id`
matches a publisher row. -/
def BookPublishersOk (db : DB) : Prop :=
  ∀ b ∈ db.books, ∀ pid, b.publisher_id = some pid →
    ∃ p ∈ db.publishers, p.id = pid

/-- The loop of `get_all_books_and_authors_n_plus_one`: fetch each book's
author by its foreign key; a dangling key raises (modelled as `none`). -/
def authorNamesLoop (db : DB) : List BookRow → Option (List String)
  | [] => some []
  | b :: rest =>
    match db.authors.find? (fun a => a.id = b.author_id) with
    | none => none
    | some a => (authorNamesLoop db rest).map (fun ns => a.name :: ns)

/-- `get_all_books_and_authors_n_plus_one` from query_examples.py. -/
def get_all_books_and_authors_n_plus_one (db : DB) : Option (List String) :=
  authorNamesLoop db db.books

/-- `get_all_books_and_authors_optimized`: `select_related("author")` joins
books to authors (the inner join silently drops a book with no matching
author row, which integrity forbids anyway). -/
def get_all_books_and_authors_optimized (db : DB) : List String :=
  db.books.filterMap
    (fun b => (db.authors.find? (fun a => a.id = b.author_id)).map
      (fun a => a.name))

/-- One author's entry of the author-statistics functions. -/
structure AuthorStats where
  name : String
  total_books : ℕ
  avg_publication_year : ℚ
deriving DecidableEq

/-- `get_author_stats_without_annotation` from query_examples.py. -/
def get_author_stats_without_annotation (db : DB) : List AuthorStats :=
  db.authors.map (fun author =>
    let books := booksOf db author.id
    let total_books := books.length
    let avg : ℚ :=
      if 0 < total_books then
        ((books.map (fun b => (b.publication_year : ℚ))).sum) / total_books
      else 0
    ⟨author.name, total_books, avg⟩)

/-- Python's `x or 0` applied to the nullable database average (`None` and
`0.0` are falsy). -/
def pyOrZero (x : Option ℚ) : ℚ :=
  match x with
  | none => 0
  | some v => if v = 0 then 0 else v

/-- `get_author_stats_with_annotation`: `Count("books")` counts the join
rows; `Avg("books__publication_year")` is `NULL` for an author with no
books, and the code applies `or 0` to it. -/
def get_author_stats_with_annotation (db : DB) : List AuthorStats :=
  db.authors.map (fun author =>
    let books := booksOf db author.id
    let avgOpt : Option ℚ :=
      if books.isEmpty then none
      else some (((books.map (fun b => (b.publication_year : ℚ))).sum)
                   / books.length)
    ⟨author.name, books.length, pyOrZero avgOpt⟩)

/-- One row of the complex author-statistics queries. -/
structure AuthorStatRow where
  author_id : ℕ
  author_name : String
  book_count : ℕ
  avg_publication_year : ℚ
  most_recent_year : ℤ
deriving DecidableEq

/-- Python's `max` on a list of years; the `[]` case raises and is never
reached (both call sites guard on a positive book count). -/
def pyMax : List ℤ → ℤ
  | [] => 0
  | y :: ys => ys.foldl max y

/-- `complex_query_with_orm` from query_examples.py: authors having a book
in the year range (`.distinct()`), then per-author statistics over ALL the
author's books, kept when the average is at least `min_avg_year`. -/
def complex_query_with_orm (db : DB) (min_year max_year : ℤ)
    (min_avg_year : ℚ) : List AuthorStatRow :=
  let authors_with_books_in_range := db.authors.filter
    (fun a => (booksOf db a.id).any
      (fun b => min_year ≤ b.publication_year ∧ b.publication_year ≤ max_year))
  authors_with_books_in_range.filterMap (fun author =>
    let books := booksOf db author.id
    let book_count := books.length
    if 0 < book_count then
      let avg_year : ℚ :=
        ((books.map (fun b => (b.publication_year : ℚ))).sum) / book_count
      let most_recent := pyMax (books.map (fun b => b.publication_year))
      if min_avg_year ≤ avg_year then
        some ⟨author.id, author.name, book_count, avg_year, most_recent⟩
      else none
    else none)

/-- `complex_query_with_raw_sql` from query_examples.py: the semantics of
the raw query — inner-join books in the year range, group by author (rows
with distinct primary keys), aggregate COUNT/AVG/MAX over the joined rows,
keep groups with average at least `min_avg_year`, order by average
descending. -/
def complex_query_with_raw_sql (db : DB) (min_year max_year : ℤ)
    (min_avg_year : ℚ) : List AuthorStatRow :=
  let grouped := db.authors.filterMap (fun a =>
    let bs := db.books.filter (fun b =>
      b.author_id = a.id ∧ min_year ≤ b.publication_year ∧
        b.publication_year ≤ max_year)
    if bs.isEmpty then none
    else
      let cnt := bs.length
      let avg : ℚ := ((bs.map (fun b => (b.publication_year : ℚ))).sum) / cnt
      if min_avg_year ≤ avg then
        some ⟨a.id, a.name, cnt, avg, pyMax (bs.map (fun b => b.publication_year))⟩
      else none)
  sortDescBy (fun x => x.avg_publication_year) grouped

/-- The Django cache as the examples use it: `cache.get` / `cache.set` on
string keys holding author-statistics lists (timeouts are wall-clock and
not modelled; within one expiry window a set entry stays present). -/
abbrev Cache := List (String × List AuthorStatRow)

/-- `cache.get(key)`. -/
def cacheGet (c : Cache) (k : String) : Option (List AuthorStatRow) :=
  c.lookup k

/-- `cache.set(key, value, timeout)`. -/
def cacheSet (c : Cache) (k : String) (v : List AuthorStatRow) : Cache :=
  (k, v) :: c

/-- The cache key `f"author_stats_{min_year}_{max_year}_{min_avg_year}"`. -/
def author_stats_cache_key (min_year max_year : ℤ) (min_avg_year : ℚ) :
    String :=
  "author_stats_" ++ toString min_year ++ "_" ++ toString max_year ++ "_"
    ++ toString min_avg_year

/-- `get_expensive_query_without_cache`: runs the same query as
`complex_query_with_orm` (the source duplicates its loop verbatim); the
simulated sleep and the returned wall-clock time are not modelled. -/
def get_expensive_query_without_cache (db : DB) (min_year max_year : ℤ)
    (min_avg_year : ℚ) : List AuthorStatRow :=
  complex_query_with_orm db min_year max_year min_avg_year

/-- `get_expensive_query_with_cache`: on a cache hit return the cached list
with flag `true`; on a miss run the query, store it, and return it with
flag `false`.  Returns the (result, from_cache) pair and the new cache
state. -/
def get_expensive_query_with_cache (db : DB) (min_year max_year : ℤ)
    (min_avg_year : ℚ) (c : Cache) : (List AuthorStatRow × Bool) × Cache :=
  let cache_key := author_stats_cache_key min_year max_year min_avg_year
  match cacheGet c cache_key with
  | some cached_result => ((cached_result, true), c)
  | none =>
    let result := complex_query_with_orm db min_year max_year min_avg_year
    ((result, false), cacheSet c cache_key result)

/-- `get_book_publisher_name` from utils.py.  `Book.objects.get(id=...)`
returns the unique matching row, raises `DoesNotExist` (caught) when there
is none, and `MultipleObjectsReturned` (uncaught, `none`) when several
match; a non-null but dangling `publisher_id` raises on attribute access
(uncaught, `none`). -/
def get_book_publisher_name (db : DB) (book_id : ℕ) : Option String :=
  match db.books.filter (fun b => b.id = book_id) with
  | [] => some "Book not found"
  | [book] =>
    match book.publisher_id with
    | none => some "Publisher not available"
    | some pid =>
      (db.publishers.find? (fun p => p.id = pid)).map (fun p => p.name)
  | _ => none

end Examples

namespace Examples

theorem pyOrZero_some (v : ℚ) : pyOrZero (some v) = v := by
  show (if v = 0 then 0 else v) = v
  split
  · next h => exact h.symm
  · rfl

/-- C6: For every database state, `get_author_stats_without_annotation` and
`get_author_stats_with_annotation` return equal lists: one dictionary per
author with the same name, the same `total_books` (the number of that
author's books), and the same `avg_publication_year` (the mean of the
author's books' publication years, and 0 for an author with no books). -/
theorem author_stats_without_eq_with_annotation (db : DB) :
    get_author_stats_without_annotation db
      = get_author_stats_with_annotation db := by
  unfold get_author_stats_without_annotation get_author_stats_with_annotation
  refine List.map_congr_left ?_
  intro a _
  dsimp only
  cases hb : booksOf db a.id with
  | nil => simp [pyOrZero]
  | cons b bs =>
    have h1 : 0 < (b :: bs).length := Nat.succ_pos _
    have h2 : ((b :: bs).isEmpty) = false := rfl
    simp only [h1, if_pos, h2, Bool.false_eq_true, if_false, pyOrZero_some]

/-- C10: In both author-statistics computations the average-publication-year
division is guarded: every produced entry describes exactly the author's
books, and an author with no books gets `avg_publication_year = 0` rather
than a division by zero, in both functions. -/
theorem author_stats_zero_books_avg_zero (db : DB) :
    (∀ s ∈ get_author_stats_without_annotation db,
       s.total_books = 0 → s.avg_publication_year = 0)
  ∧ (∀ s ∈ get_author_stats_with_annotation db,
       s.total_books = 0 → s.avg_publication_year = 0) := by
  constructor
  · intro s hs h0
    unfold get_author_stats_without_annotation at hs
    rcases List.mem_map.mp hs with ⟨a, _, rfl⟩
    dsimp only at h0 ⊢
    rw [h0, if_neg (lt_irrefl 0)]
  · intro s hs h0
    unfold get_author_stats_with_annotation at hs
    rcases List.mem_map.mp hs with ⟨a, _, rfl⟩
    dsimp only at h0 ⊢
    have he : (booksOf db a.id).isEmpty = true := by
      rw [List.isEmpty_iff_length_eq_zero]
      exact h0
    rw [he, if_pos rfl]
    rfl

/-- A one-author, no-book database used as a concrete witness input. -/
def dbOneAuthorNoBooks : DB := ⟨[], [⟨1, "A"⟩], []⟩

/-- Witness for the C10 theorem at a concrete database. -/
theorem author_stats_zero_books_avg_zero_witness :
    ((⟨"A", 0, 0⟩ : AuthorStats) ∈
        get_author_stats_without_annotation dbOneAuthorNoBooks
      ∧ (⟨"A", 0, 0⟩ : AuthorStats).total_books = 0)
    ∧ (⟨"A", 0, 0⟩ : AuthorStats).avg_publication_year = 0 :=
  ⟨⟨by decide, rfl⟩,
   (author_stats_zero_books_avg_zero dbOneAuthorNoBooks).1 ⟨"A", 0, 0⟩
     (by decide) rfl⟩

/-- C7: With no entry under the computed cache key,
`get_expensive_query_with_cache` returns the same list as
`get_expensive_query_without_cache` with `from_cache = false` and stores
that list under the key; a second call on the resulting cache returns the
same list with `from_cache = true` and leaves the cache unchanged. -/
theorem expensive_query_cache_spec (db : DB) (min_year max_year : ℤ)
    (min_avg_year : ℚ) (c : Cache)
    (h : cacheGet c (author_stats_cache_key min_year max_year min_avg_year)
           = none) :
    ∃ result c1,
      get_expensive_query_with_cache db min_year max_year min_avg_year c
          = ((result, false), c1)
      ∧ result = get_expensive_query_without_cache db min_year max_year
          min_avg_year
      ∧ cacheGet c1 (author_stats_cache_key min_year max_year min_avg_year)
          = some result
      ∧ get_expensive_query_with_cache db min_year max_year min_avg_year c1
          = ((result, true), c1) := by
  refine ⟨complex_query_with_orm db min_year max_year min_avg_year,
    cacheSet c (author_stats_cache_key min_year max_year min_avg_year)
      (complex_query_with_orm db min_year max_year min_avg_year),
    ?_, rfl, ?_, ?_⟩
  · simp only [get_expensive_query_with_cache]
    rw [h]
  · exact List.lookup_cons_self
  · have e : cacheGet (cacheSet c
        (author_stats_cache_key min_year max_year min_avg_year)
        (complex_query_with_orm db min_year max_year min_avg_year))
        (author_stats_cache_key min_year max_year min_avg_year)
        = some (complex_query_with_orm db min_year max_year min_avg_year) :=
      List.lookup_cons_self
    simp only [get_expensive_query_with_cache]
    rw [e]

/-- Witness for the C7 theorem at a concrete database and the empty
cache. -/
theorem expensive_query_cache_spec_witness :
    cacheGet [] (author_stats_cache_key 1950 2020 1980) = none
    ∧ ∃ result c1,
      get_expensive_query_with_cache dbOneAuthorNoBooks 1950 2020 1980 []
          = ((result, false), c1)
      ∧ result = get_expensive_query_without_cache dbOneAuthorNoBooks 1950
          2020 1980
      ∧ cacheGet c1 (author_stats_cache_key 1950 2020 1980) = some result
      ∧ get_expensive_query_with_cache dbOneAuthorNoBooks 1950 2020 1980 c1
          = ((result, true), c1) :=
  ⟨rfl, expensive_query_cache_spec dbOneAuthorNoBooks 1950 2020 1980 [] rfl⟩

/-- C5: Under the foreign-key integrity the schema enforces
(`Book.author` is a non-null foreign key), the N+1 and the
`select_related` versions return the same list of author names, one per
book in book order. -/
theorem books_and_authors_n_plus_one_eq_optimized (db : DB)
    (h : BookAuthorsOk db) :
    get_all_books_and_authors_n_plus_one db
      = some (get_all_books_and_authors_optimized db) := by
  unfold get_all_books_and_authors_n_plus_one get_all_books_and_authors_optimized
  have key : ∀ l : List BookRow,
      (∀ b ∈ l, ∃ a ∈ db.authors, a.id = b.author_id) →
      authorNamesLoop db l
        = some (l.filterMap (fun b =>
            (db.authors.find? (fun a => a.id = b.author_id)).map
              (fun a => a.name))) := by
    intro l hl
    induction l with
    | nil => rfl
    | cons b rest ih =>
      obtain ⟨a0, ha0, hid⟩ := hl b (List.mem_cons_self _ _)
      have hfind : (db.authors.find? (fun a => a.id = b.author_id)).isSome := by
        rw [List.find?_isSome]
        exact ⟨a0, ha0, by simp [hid]⟩
      obtain ⟨af, haf⟩ := Option.isSome_iff_exists.mp hfind
      unfold authorNamesLoop
      rw [haf, ih (fun x hx => hl x (List.mem_cons_of_mem _ hx))]
      rw [List.filterMap_cons, haf]
      rfl
  exact key db.books h

/-- A two-book, one-author database used as a concrete witness input. -/
def dbTwoBooks : DB :=
  ⟨[], [⟨1, "A"⟩], [⟨1, "B1", 1, none, 2000⟩, ⟨2, "B2", 1, none, 1800⟩]⟩

/-- Witness for the C5 theorem at a concrete database. -/
theorem books_and_authors_n_plus_one_eq_optimized_witness :
    BookAuthorsOk dbTwoBooks
    ∧ get_all_books_and_authors_n_plus_one dbTwoBooks
        = some (get_all_books_and_authors_optimized dbTwoBooks) :=
  ⟨by intro b hb; exact ⟨⟨1, "A"⟩, by decide, by fin_cases hb <;> rfl⟩,
   books_and_authors_n_plus_one_eq_optimized dbTwoBooks
     (by intro b hb; exact ⟨⟨1, "A"⟩, by decide, by fin_cases hb <;> rfl⟩)⟩

/-- C4 counterexample: on a database whose author has one book inside the
year range (2000) and one outside it (1800), `complex_query_with_orm`
aggregates over ALL the author's books (average 1900, below the 1980
threshold, so the author is dropped) while `complex_query_with_raw_sql`
aggregates only over the in-range books (average 2000, so the author is
kept with different statistics): the two do not return the same set of
rows. -/
theorem complex_query_orm_raw_sql_counterexample :
    ¬ (∀ s : AuthorStatRow,
        s ∈ complex_query_with_orm dbTwoBooks 1950 2020 1980
          ↔ s ∈ complex_query_with_raw_sql dbTwoBooks 1950 2020 1980) := by
  intro hset
  have e1 : complex_query_with_orm dbTwoBooks 1950 2020 1980 = [] := by
    norm_num [complex_query_with_orm, dbTwoBooks, booksOf, List.filter_cons,
      List.filterMap_cons, List.any_cons]
  have e2 : complex_query_with_raw_sql dbTwoBooks 1950 2020 1980
      = [⟨1, "A", 1, 2000, 2000⟩] := by
    norm_num [complex_query_with_raw_sql, dbTwoBooks, booksOf,
      List.filter_cons, List.filterMap_cons, sortDescBy, pyMax]
  have h1 : (⟨1, "A", 1, 2000, 2000⟩ : AuthorStatRow)
      ∈ complex_query_with_raw_sql dbTwoBooks 1950 2020 1980 := by
    rw [e2]
    exact List.mem_singleton.mpr rfl
  have h2 := (hset _).mpr h1
  rw [e1] at h2
  exact List.not_mem_nil _ h2

/-- C4 amended: when every book's publication year lies in the queried
range, `complex_query_with_orm` and `complex_query_with_raw_sql` return
the same rows (the same list up to order, hence the same set). -/
theorem complex_query_orm_perm_raw_sql (db : DB) (min_year max_year : ℤ)
    (min_avg_year : ℚ)
    (hall : ∀ b ∈ db.books,
      min_year ≤ b.publication_year ∧ b.publication_year ≤ max_year) :
    List.Perm (complex_query_with_orm db min_year max_year min_avg_year)
      (complex_query_with_raw_sql db min_year max_year min_avg_year) := by
  unfold complex_query_with_orm complex_query_with_raw_sql
  dsimp only
  rw [List.filterMap_filter]
  rw [List.filterMap_congr (g := fun a =>
    let bs := db.books.filter (fun b =>
      b.author_id = a.id ∧ min_year ≤ b.publication_year ∧
        b.publication_year ≤ max_year)
    if bs.isEmpty then none
    else
      let cnt := bs.length
      let avg : ℚ := ((bs.map (fun b => (b.publication_year : ℚ))).sum) / cnt
      if min_avg_year ≤ avg then
        some ⟨a.id, a.name, cnt, avg,
          pyMax (bs.map (fun b => b.publication_year))⟩
      else none) ?_]
  · exact (sortDescBy_perm _ _).symm
  · intro a _
    have hbs : db.books.filter (fun b =>
        b.author_id = a.id ∧ min_year ≤ b.publication_year ∧
          b.publication_year ≤ max_year) = booksOf db a.id := by
      unfold booksOf
      refine List.filter_congr ?_
      intro b hb
      have hbq := hall b hb
      simp [hbq.1, hbq.2]
    dsimp only
    rw [hbs]
    cases hB : booksOf db a.id with
    | nil => simp
    | cons b rest =>
      have hbmem : b ∈ db.books := by
        have hm : b ∈ booksOf db a.id := by
          rw [hB]
          exact List.mem_cons_self _ _
        exact List.mem_of_mem_filter hm
      have hin := hall b hbmem
      have hany : ((b :: rest).any (fun x =>
          min_year ≤ x.publication_year ∧ x.publication_year ≤ max_year))
            = true := by
        simp [List.any_cons, hin.1, hin.2]
      rw [if_pos hany]
      simp

/-- Witness for the C4 amended theorem: with the range widened to contain
both books, the two queries agree at `dbTwoBooks`. -/
theorem complex_query_orm_perm_raw_sql_witness :
    (∀ b ∈ dbTwoBooks.books,
      (1500:ℤ) ≤ b.publication_year ∧ b.publication_year ≤ 2020)
    ∧ List.Perm (complex_query_with_orm dbTwoBooks 1500 2020 1980)
        (complex_query_with_raw_sql dbTwoBooks 1500 2020 1980) :=
  ⟨by decide,
   complex_query_orm_perm_raw_sql dbTwoBooks 1500 2020 1980 (by decide)⟩

/-- A database whose only publisher is literally named "Book not found". -/
def dbSentinelPublisher : DB :=
  ⟨[⟨1, "Book not found"⟩], [⟨1, "A"⟩], [⟨1, "T", 1, some 1, 2000⟩]⟩

/-- C9 counterexample: with a publisher literally named "Book not found",
`get_book_publisher_name` returns "Book not found" for a book that exists,
so "returns 'Book not found' if and only if no Book with that id exists"
fails in the only-if direction. -/
theorem get_book_publisher_name_counterexample :
    ¬ (get_book_publisher_name dbSentinelPublisher 1 = some "Book not found"
        ↔ ¬ ∃ b ∈ dbSentinelPublisher.books, b.id = 1) := by
  intro h
  have h1 : get_book_publisher_name dbSentinelPublisher 1
      = some "Book not found" := by decide
  exact h.mp h1 ⟨⟨1, "T", 1, some 1, 2000⟩, by decide, rfl⟩

/-- C9 amended: over well-formed database states (unique book primary keys
and publisher foreign-key integrity, both schema-enforced) in which no
publisher is named one of the two sentinel strings,
`get_book_publisher_name` returns "Book not found" iff no book has the id,
returns "Publisher not available" iff the book exists with a null
publisher, and otherwise returns the book's publisher's name.  (The
function only reads; the embedding is a pure function of the state.) -/
theorem get_book_publisher_name_spec (db : DB) (book_id : ℕ)
    (hids : (db.books.map (fun b => b.id)).Nodup)
    (hpub : BookPublishersOk db)
    (hsent : ∀ p ∈ db.publishers,
      p.name ≠ "Book not found" ∧ p.name ≠ "Publisher not available") :
    (get_book_publisher_name db book_id = some "Book not found"
      ↔ ¬ ∃ b ∈ db.books, b.id = book_id)
    ∧ (get_book_publisher_name db book_id = some "Publisher not available"
      ↔ ∃ b ∈ db.books, b.id = book_id ∧ b.publisher_id = none)
    ∧ (∀ b ∈ db.books, b.id = book_id → ∀ pid, b.publisher_id = some pid →
        ∃ p ∈ db.publishers, p.id = pid ∧
          get_book_publisher_name db book_id = some p.name) := by
  have hmemF : ∀ b, b ∈ db.books.filter (fun x => x.id = book_id)
      ↔ b ∈ db.books ∧ b.id = book_id := by
    intro b
    rw [List.mem_filter]
    simp
  unfold get_book_publisher_name
  cases hF : db.books.filter (fun x => x.id = book_id) with
  | nil =>
    have hno : ¬ ∃ b ∈ db.books, b.id = book_id := by
      rintro ⟨b, hb, hid⟩
      have : b ∈ db.books.filter (fun x => x.id = book_id) :=
        (hmemF b).mpr ⟨hb, hid⟩
      rw [hF] at this
      exact List.not_mem_nil _ this
    refine ⟨⟨fun _ => hno, fun _ => rfl⟩, ⟨?_, ?_⟩, ?_⟩
    · intro h
      exact absurd (Option.some.inj h) (by decide)
    · rintro ⟨b, hb, hid, _⟩
      exact absurd ⟨b, hb, hid⟩ hno
    · intro b hb hid
      exact absurd ⟨b, hb, hid⟩ hno
  | cons b1 tl =>
    have hb1F : b1 ∈ db.books.filter (fun x => x.id = book_id) := by
      rw [hF]
      exact List.mem_cons_self _ _
    obtain ⟨hb1, hid1⟩ := (hmemF b1).mp hb1F
    cases tl with
    | cons b2 tl2 =>
      exfalso
      have hsub : ((db.books.filter (fun x => x.id = book_id)).map
          (fun b => b.id)).Nodup :=
        List.Nodup.sublist
          ((List.filter_sublist db.books).map (fun b => b.id)) hids
      rw [hF] at hsub
      have hb2F : b2 ∈ db.books.filter (fun x => x.id = book_id) := by
        rw [hF]
        exact List.mem_cons_of_mem _ (List.mem_cons_self _ _)
      obtain ⟨_, hid2⟩ := (hmemF b2).mp hb2F
      have hnotin := (List.nodup_cons.mp hsub).1
      exact hnotin (List.mem_cons.mpr (Or.inl (hid1.trans hid2.symm)))
    | nil =>
      dsimp only
      have honly : ∀ b ∈ db.books, b.id = book_id → b = b1 := by
        intro b hb hid
        have : b ∈ db.books.filter (fun x => x.id = book_id) :=
          (hmemF b).mpr ⟨hb, hid⟩
        rw [hF] at this
        exact List.mem_singleton.mp this
      cases hp : b1.publisher_id with
      | none =>
        dsimp only
        refine ⟨⟨?_, ?_⟩, ⟨fun _ => ⟨b1, hb1, hid1, hp⟩, fun _ => rfl⟩, ?_⟩
        · intro h
          exact absurd (Option.some.inj h) (by decide)
        · intro h
          exact absurd ⟨b1, hb1, hid1⟩ h
        · intro b hb hid pid hpid
          rw [honly b hb hid] at hpid
          rw [hp] at hpid
          exact absurd hpid (by simp)
      | some pid =>
        dsimp only
        obtain ⟨p0, hp0, hpid0⟩ := hpub b1 hb1 pid hp
        have hfind : (db.publishers.find? (fun p => p.id = pid)).isSome := by
          rw [List.find?_isSome]
          exact ⟨p0, hp0, by simp [hpid0]⟩
        obtain ⟨pub, hpubeq⟩ := Option.isSome_iff_exists.mp hfind
        have hpubmem : pub ∈ db.publishers := List.mem_of_find?_eq_some hpubeq
        have hpubid : pub.id = pid := by
          have := List.find?_some hpubeq
          simpa using this
        rw [hpubeq]
        refine ⟨⟨?_, ?_⟩, ⟨?_, ?_⟩, ?_⟩
        · intro h
          exact absurd (Option.some.inj h) (hsent pub hpubmem).1
        · intro h
          exact absurd ⟨b1, hb1, hid1⟩ h
        · intro h
          exact absurd (Option.some.inj h) (hsent pub hpubmem).2
        · rintro ⟨b, hb, hid, hnone⟩
          rw [honly b hb hid, hp] at hnone
          exact absurd hnone (by simp)
        · intro b hb hid pid2 hpid2
          rw [honly b hb hid, hp] at hpid2
          obtain rfl : pid = pid2 := Option.some.inj hpid2
          exact ⟨pub, hpubmem, hpubid, rfl⟩

/-- A well-formed database used as the concrete witness input for C9. -/
def dbBooksWithPublisher : DB :=
  ⟨[⟨1, "Acme"⟩], [⟨1, "A"⟩],
   [⟨1, "T1", 1, some 1, 2000⟩, ⟨2, "T2", 1, none, 2001⟩]⟩

/-- Witness for the C9 amended theorem at a concrete database and id. -/
theorem get_book_publisher_name_spec_witness :
    ((dbBooksWithPublisher.books.map (fun b => b.id)).Nodup
      ∧ BookPublishersOk dbBooksWithPublisher
      ∧ (∀ p ∈ dbBooksWithPublisher.publishers,
          p.name ≠ "Book not found" ∧ p.name ≠ "Publisher not available"))
    ∧ (get_book_publisher_name dbBooksWithPublisher 2
        = some "Publisher not available"
      ↔ ∃ b ∈ dbBooksWithPublisher.books, b.id = 2 ∧ b.publisher_id = none) :=
  ⟨⟨by decide,
    by
      intro b hb pid hpid
      fin_cases hb
      · exact ⟨⟨1, "Acme"⟩, List.mem_cons_self _ _, Option.some.inj hpid⟩
      · exact absurd hpid (by simp),
    by decide⟩,
   (get_book_publisher_name_spec dbBooksWithPublisher 2 (by decide)
      (by
        intro b hb pid hpid
        fin_cases hb
        · exact ⟨⟨1, "Acme"⟩, List.mem_cons_self _ _, Option.some.inj hpid⟩
        · exact absurd hpid (by simp))
      (by decide)).2.1⟩

end Examples

namespace Middleware

theorem lookup_cons_ne {β : Type} {s a : String} (g : β)
    (l : List (String × β)) (h : s ≠ a) :
    ((a, g) :: l).lookup s = l.lookup s := by
  rw [List.lookup_cons]
  rw [show (s == a) = false from beq_eq_false_iff_ne.mpr h]

theorem lookup_map_entry (l : List (String × QueryGroup)) (k : String)
    (f : QueryGroup → QueryGroup) (s : String) :
    (l.map (fun p => if p.1 = k then (p.1, f p.2) else p)).lookup s
      = if s = k then (l.lookup k).map f else l.lookup s := by
  induction l with
  | nil => by_cases h : s = k <;> simp [h]
  | cons p l ih =>
    obtain ⟨a, g⟩ := p
    rw [List.map_cons]
    dsimp only
    by_cases hp : a = k
    · subst hp
      rw [if_pos rfl]
      by_cases hs : s = a
      · subst hs
        rw [List.lookup_cons_self, List.lookup_cons_self, if_pos rfl]
        rfl
      · rw [lookup_cons_ne (f g) _ hs, ih, if_neg hs, if_neg hs,
          lookup_cons_ne g _ hs]
    · rw [if_neg hp]
      by_cases hs : s = a
      · subst hs
        rw [if_neg hp, List.lookup_cons_self, List.lookup_cons_self]
      · rw [lookup_cons_ne g _ hs, ih]
        by_cases hsk : s = k
        · rw [if_pos hsk, if_pos hsk,
            lookup_cons_ne g _ (fun h => hp h.symm)]
        · rw [if_neg hsk, if_neg hsk, lookup_cons_ne g _ hs]

theorem addQuery_lookup (acc : List (String × QueryGroup)) (q : QueryRecord)
    (s : String) :
    (addQuery acc q).lookup s =
      if s = q.sql then
        match acc.lookup q.sql with
        | some g => some ⟨g.count + 1, g.total_time + q.time,
            g.stacktrace ++ q.stacktrace, g.is_select⟩
        | none => some ⟨1, q.time, q.stacktrace, q.is_select⟩
      else acc.lookup s := by
  unfold addQuery
  by_cases h : (acc.lookup q.sql).isSome
  · rw [if_pos h]
    rw [lookup_map_entry acc q.sql
      (fun g => ⟨g.count + 1, g.total_time + q.time,
        g.stacktrace ++ q.stacktrace, g.is_select⟩) s]
    obtain ⟨g, hg⟩ := Option.isSome_iff_exists.mp h
    rw [hg]
    by_cases hs : s = q.sql
    · rw [if_pos hs, if_pos hs]
      rfl
    · rw [if_neg hs, if_neg hs]
  · rw [if_neg h, List.lookup_append]
    have hnone : acc.lookup q.sql = none := Option.not_isSome_iff_eq_none.mp h
    by_cases hs : s = q.sql
    · subst hs
      rw [hnone]
      simp
    · rw [if_neg hs]
      cases hacc : acc.lookup s with
      | some g => rfl
      | none =>
        rw [Option.none_or, lookup_cons_ne _ _ hs, List.lookup_nil]

theorem repeated_queries_append (qs : List QueryRecord) (q : QueryRecord) :
    repeated_queries (qs ++ [q]) = addQuery (repeated_queries qs) q := by
  unfold repeated_queries
  rw [List.foldl_append]
  rfl

theorem repeated_queries_lookup (qs : List QueryRecord) (s : String) :
    (repeated_queries qs).lookup s
      = ((qs.filter (fun q => q.sql = s)).head?).map (fun q0 =>
          { count := (qs.filter (fun q => q.sql = s)).length,
            total_time :=
              ((qs.filter (fun q => q.sql = s)).map (fun q => q.time)).sum,
            stacktrace :=
              ((qs.filter (fun q => q.sql = s)).map
                (fun q => q.stacktrace)).flatten,
            is_select := q0.is_select }) := by
  induction qs using List.reverseRecOn with
  | nil => rfl
  | append_singleton qs q ih =>
    rw [repeated_queries_append, addQuery_lookup]
    by_cases hs : s = q.sql
    · subst hs
      rw [if_pos rfl, ih, List.filter_append]
      have hq : [q].filter (fun x => x.sql = q.sql) = [q] := by simp
      rw [hq]
      cases hF : qs.filter (fun x => x.sql = q.sql) with
      | nil => simp
      | cons q0 F => simp [add_assoc]
    · rw [if_neg hs, ih, List.filter_append]
      have hq : [q].filter (fun x => x.sql = s) = [] := by
        simp only [List.filter_cons, List.filter_nil]
        rw [show (decide (q.sql = s)) = false from
          decide_eq_false (fun h => hs h.symm)]
        rfl
      rw [hq, List.append_nil]

theorem addQuery_keys (acc : List (String × QueryGroup)) (q : QueryRecord) :
    (addQuery acc q).map Prod.fst =
      if (acc.lookup q.sql).isSome then acc.map Prod.fst
      else acc.map Prod.fst ++ [q.sql] := by
  unfold addQuery
  by_cases h : (acc.lookup q.sql).isSome
  · rw [if_pos h, if_pos h, List.map_map]
    refine List.map_congr_left ?_
    intro p _
    by_cases hp : p.1 = q.sql
    · simp [hp]
    · simp [hp]
  · rw [if_neg h, if_neg h, List.map_append]
    rfl

theorem repeated_queries_keys_nodup (qs : List QueryRecord) :
    ((repeated_queries qs).map Prod.fst).Nodup := by
  induction qs using List.reverseRecOn with
  | nil => exact List.nodup_nil
  | append_singleton qs q ih =>
    rw [repeated_queries_append, addQuery_keys]
    by_cases h : ((repeated_queries qs).lookup q.sql).isSome
    · rw [if_pos h]
      exact ih
    · rw [if_neg h]
      have hnotmem : q.sql ∉ (repeated_queries qs).map Prod.fst := by
        intro hmem
        apply h
        obtain ⟨p, hp, hfst⟩ := List.mem_map.mp hmem
        rw [List.lookup_isSome_iff]
        exact ⟨p, hp, by simp [hfst]⟩
      simp [List.nodup_append, ih, hnotmem]

theorem lookup_eq_some_of_mem {β : Type} (l : List (String × β))
    (hnd : (l.map Prod.fst).Nodup) (s : String) (g : β)
    (hmem : (s, g) ∈ l) : l.lookup s = some g := by
  induction l with
  | nil => cases hmem
  | cons p l ih =>
    obtain ⟨a, g0⟩ := p
    rcases List.mem_cons.mp hmem with heq | hmem2
    · rw [show a = s from (congrArg Prod.fst heq).symm,
        show g0 = g from (congrArg Prod.snd heq).symm]
      exact List.lookup_cons_self
    · rw [List.map_cons] at hnd
      have hnd2 := List.nodup_cons.mp hnd
      have hs : s ≠ a := by
        intro hcontr
        apply hnd2.1
        subst hcontr
        exact List.mem_map.mpr ⟨(s, g), hmem2, rfl⟩
      rw [lookup_cons_ne g0 _ hs]
      exact ih hnd2.2 hmem2

theorem mem_repeated_queries_count (qs : List QueryRecord) (s : String)
    (g : QueryGroup) (h : (s, g) ∈ repeated_queries qs) :
    g.count = (qs.filter (fun q => q.sql = s)).length := by
  have hl := lookup_eq_some_of_mem _ (repeated_queries_keys_nodup qs) s g h
  rw [repeated_queries_lookup] at hl
  cases hF : (qs.filter (fun q => q.sql = s)).head? with
  | none =>
    rw [hF] at hl
    simp at hl
  | some q0 =>
    rw [hF] at hl
    rw [Option.map_some'] at hl
    obtain rfl := Option.some.inj hl.symm
    rfl

theorem repeated_queries_keys_mem_iff (qs : List QueryRecord) (s : String) :
    s ∈ (repeated_queries qs).map Prod.fst
      ↔ s ∈ qs.map (fun q => q.sql) := by
  constructor
  · intro hmem
    obtain ⟨p, hp, hfst⟩ := List.mem_map.mp hmem
    have hsome : ((repeated_queries qs).lookup s).isSome := by
      rw [List.lookup_isSome_iff]
      exact ⟨p, hp, by simp [hfst]⟩
    rw [repeated_queries_lookup] at hsome
    cases hF : (qs.filter (fun q => q.sql = s)).head? with
    | none =>
      rw [hF] at hsome
      simp at hsome
    | some q0 =>
      have hq0 : q0 ∈ qs.filter (fun q => q.sql = s) := by
        cases hFF : qs.filter (fun q => q.sql = s) with
        | nil => rw [hFF] at hF; cases hF
        | cons x xs =>
          rw [hFF] at hF
          obtain rfl := Option.some.inj hF
          exact List.mem_cons_self _ _
      have := List.mem_filter.mp hq0
      exact List.mem_map.mpr ⟨q0, this.1, by simpa using this.2⟩
  · intro hmem
    obtain ⟨q0, hq0, hsql⟩ := List.mem_map.mp hmem
    have hsome : ((repeated_queries qs).lookup s).isSome := by
      rw [repeated_queries_lookup]
      have hq0F : q0 ∈ qs.filter (fun q => q.sql = s) :=
        List.mem_filter.mpr ⟨hq0, by simp [hsql]⟩
      cases hF : (qs.filter (fun q => q.sql = s)).head? with
      | none =>
        rw [List.head?_eq_none_iff] at hF
        rw [hF] at hq0F
        cases hq0F
      | some q1 => simp [hF]
    obtain ⟨g, hg⟩ := Option.isSome_iff_exists.mp hsome
    rw [List.lookup_isSome_iff] at hsome
    obtain ⟨p, hp, hbeq⟩ := hsome
    exact List.mem_map.mpr ⟨p, hp, (beq_iff_eq.mp hbeq).symm⟩

/-- The number of distinct SQL strings that occur more than once among the
query records. -/
def dupSqlCount (qs : List QueryRecord) : ℕ :=
  ((qs.map (fun q => q.sql)).dedup.filter
    (fun s => 1 < (qs.map (fun q => q.sql)).count s)).length

theorem count_map_sql (qs : List QueryRecord) (s : String) :
    (qs.map (fun q => q.sql)).count s
      = (qs.filter (fun q => q.sql = s)).length := by
  rw [List.count_eq_countP, List.countP_map,
    ← List.countP_eq_length_filter]
  refine List.countP_congr ?_
  intro q _
  by_cases h : q.sql = s
  · simp [h]
  · simp [h]

theorem n_plus_one_length (qs : List QueryRecord) :
    (n_plus_one_queries qs).length = dupSqlCount qs := by
  unfold n_plus_one_queries dupSqlCount
  rw [← List.countP_eq_length_filter, ← List.countP_eq_length_filter]
  have step1 : (repeated_queries qs).countP (fun p => 1 < p.2.count)
      = (repeated_queries qs).countP
          (fun p => 1 < (qs.map (fun q => q.sql)).count p.1) := by
    refine List.countP_congr ?_
    intro p hp
    have hc : p.2.count = (qs.filter (fun q => q.sql = p.1)).length := by
      obtain ⟨a, g⟩ := p
      exact mem_repeated_queries_count qs a g hp
    rw [count_map_sql]
    simp [hc]
  have step2 : (repeated_queries qs).countP
      (fun p => 1 < (qs.map (fun q => q.sql)).count p.1)
        = ((repeated_queries qs).map Prod.fst).countP
            (fun s => 1 < (qs.map (fun q => q.sql)).count s) := by
    rw [List.countP_map]
    rfl
  have hperm : List.Perm ((repeated_queries qs).map Prod.fst)
      ((qs.map (fun q => q.sql)).dedup) := by
    refine List.Subperm.antisymm ?_ ?_
    · refine List.Nodup.subperm (repeated_queries_keys_nodup qs) ?_
      intro s hs
      rw [List.mem_dedup]
      exact (repeated_queries_keys_mem_iff qs s).mp hs
    · refine List.Nodup.subperm (List.nodup_dedup _) ?_
      intro s hs
      rw [List.mem_dedup] at hs
      exact (repeated_queries_keys_mem_iff qs s).mpr hs
  rw [step1, step2, hperm.countP_eq]

theorem lookup_map_setEntry {β : Type} (l : List (String × β)) (k : String)
    (v : β) (s : String) :
    (l.map (fun p => if p.1 = k then (k, v) else p)).lookup s
      = if s = k then (l.lookup k).map (fun _ => v) else l.lookup s := by
  induction l with
  | nil => by_cases h : s = k <;> simp [h]
  | cons p l ih =>
    obtain ⟨a, g⟩ := p
    rw [List.map_cons]
    dsimp only
    by_cases hp : a = k
    · subst hp
      rw [if_pos rfl]
      by_cases hs : s = a
      · subst hs
        rw [List.lookup_cons_self, List.lookup_cons_self, if_pos rfl]
        rfl
      · rw [lookup_cons_ne v _ hs, ih, if_neg hs, if_neg hs,
          lookup_cons_ne g _ hs]
    · rw [if_neg hp]
      by_cases hs : s = a
      · subst hs
        rw [if_neg hp, List.lookup_cons_self, List.lookup_cons_self]
      · rw [lookup_cons_ne g _ hs, ih]
        by_cases hsk : s = k
        · rw [if_pos hsk, if_pos hsk,
            lookup_cons_ne g _ (fun h => hp h.symm)]
        · rw [if_neg hsk, if_neg hsk, lookup_cons_ne g _ hs]

theorem setHeader_body (r : HttpResponse) (k v : String) :
    (setHeader r k v).body = r.body := by
  unfold setHeader
  split <;> rfl

theorem setHeader_of_fresh (r : HttpResponse) (k v : String)
    (h : r.headers.lookup k = none) :
    setHeader r k v = ⟨r.body, r.headers ++ [(k, v)]⟩ := by
  unfold setHeader
  rw [if_neg (by rw [h]; simp)]

theorem setHeader_lookup_ne (r : HttpResponse) {s k : String} (v : String)
    (h : s ≠ k) :
    (setHeader r k v).headers.lookup s = r.headers.lookup s := by
  unfold setHeader
  split
  · show (r.headers.map (fun p => if p.1 = k then (k, v) else p)).lookup s = _
    rw [lookup_map_setEntry, if_neg h]
  · show (r.headers ++ [(k, v)]).lookup s = _
    rw [List.lookup_append, lookup_cons_ne v _ h, List.lookup_nil,
      Option.or_none]

theorem setHeader_keys (r : HttpResponse) (k v : String) :
    (setHeader r k v).headers.map Prod.fst =
      if (r.headers.lookup k).isSome then r.headers.map Prod.fst
      else r.headers.map Prod.fst ++ [k] := by
  unfold setHeader
  by_cases h : (r.headers.lookup k).isSome
  · rw [if_pos h, if_pos h]
    show (r.headers.map (fun p => if p.1 = k then (k, v) else p)).map
      Prod.fst = _
    rw [List.map_map]
    refine List.map_congr_left ?_
    intro p _
    by_cases hp : p.1 = k
    · simp [hp]
    · simp [hp]
  · rw [if_neg h, if_neg h]
    show (r.headers ++ [(k, v)]).map Prod.fst = _
    rw [List.map_append]
    rfl

theorem setHeader_mem (r : HttpResponse) (k v : String)
    (p : String × String) (h : p ∈ (setHeader r k v).headers) :
    p ∈ r.headers ∨ p.1 = k := by
  unfold setHeader at h
  split at h
  · obtain ⟨p0, hp0, hupd⟩ := List.mem_map.mp h
    by_cases hc : p0.1 = k
    · rw [if_pos hc] at hupd
      right
      rw [← hupd]
    · rw [if_neg hc] at hupd
      left
      rw [← hupd]
      exact hp0
  · rcases List.mem_append.mp h with hmem | hmem
    · exact Or.inl hmem
    · right
      rw [List.mem_singleton.mp hmem]

theorem foldl_setHeader_append (ps : List (String × String))
    (r : HttpResponse)
    (hfresh : ∀ p ∈ ps, r.headers.lookup p.1 = none)
    (hnd : (ps.map Prod.fst).Nodup) :
    ps.foldl (fun r p => setHeader r p.1 p.2) r
      = ⟨r.body, r.headers ++ ps⟩ := by
  induction ps generalizing r with
  | nil => simp
  | cons p ps ih =>
    obtain ⟨k, v⟩ := p
    rw [List.foldl_cons]
    have h1 : r.headers.lookup k = none := hfresh (k, v) (List.mem_cons_self _ _)
    rw [setHeader_of_fresh r k v h1]
    rw [List.map_cons] at hnd
    have hnd2 := List.nodup_cons.mp hnd
    have hfresh2 : ∀ p ∈ ps,
        ((⟨r.body, r.headers ++ [(k, v)]⟩ : HttpResponse)).headers.lookup p.1
          = none := by
      intro p hp
      show (r.headers ++ [(k, v)]).lookup p.1 = none
      rw [List.lookup_append, hfresh p (List.mem_cons_of_mem _ hp)]
      have hne : p.1 ≠ k := by
        intro hcontr
        apply hnd2.1
        rw [← hcontr]
        exact List.mem_map.mpr ⟨p, hp, rfl⟩
      rw [lookup_cons_ne v _ hne, List.lookup_nil]
      rfl
    rw [ih _ hfresh2 hnd2.2]
    rw [List.append_assoc]
    rfl

theorem foldl_setHeader_body (ps : List (String × String))
    (r : HttpResponse) :
    (ps.foldl (fun r p => setHeader r p.1 p.2) r).body = r.body := by
  induction ps generalizing r with
  | nil => rfl
  | cons p ps ih => rw [List.foldl_cons, ih, setHeader_body]

theorem foldl_setHeader_lookup_ne (ps : List (String × String))
    (r : HttpResponse) (s : String) (h : ∀ p ∈ ps, s ≠ p.1) :
    (ps.foldl (fun r p => setHeader r p.1 p.2) r).headers.lookup s
      = r.headers.lookup s := by
  induction ps generalizing r with
  | nil => rfl
  | cons p ps ih =>
    rw [List.foldl_cons,
      ih _ (fun p2 hp2 => h p2 (List.mem_cons_of_mem _ hp2)),
      setHeader_lookup_ne r p.2 (h p (List.mem_cons_self _ _))]

theorem foldl_setHeader_mem (ps : List (String × String))
    (r : HttpResponse) (p : String × String)
    (h : p ∈ (ps.foldl (fun r p => setHeader r p.1 p.2) r).headers) :
    p ∈ r.headers ∨ ∃ p2 ∈ ps, p.1 = p2.1 := by
  induction ps generalizing r with
  | nil => exact Or.inl h
  | cons p0 ps ih =>
    rw [List.foldl_cons] at h
    rcases ih _ h with hmem | ⟨p2, hp2, hfst⟩
    · rcases setHeader_mem r p0.1 p0.2 p hmem with hmem2 | hfst
      · exact Or.inl hmem2
      · exact Or.inr ⟨p0, List.mem_cons_self _ _, hfst⟩
    · exact Or.inr ⟨p2, List.mem_cons_of_mem _ hp2, hfst⟩

theorem foldl_setHeader_keys_congr (ps1 ps2 : List (String × String))
    (r1 r2 : HttpResponse)
    (hk : r1.headers.map Prod.fst = r2.headers.map Prod.fst)
    (h : ps1.map Prod.fst = ps2.map Prod.fst) :
    (ps1.foldl (fun r p => setHeader r p.1 p.2) r1).headers.map Prod.fst
      = (ps2.foldl (fun r p => setHeader r p.1 p.2) r2).headers.map
          Prod.fst := by
  induction ps1 generalizing ps2 r1 r2 with
  | nil =>
    cases ps2 with
    | nil => exact hk
    | cons p2 t2 => cases h
  | cons p1 t1 ih =>
    cases ps2 with
    | nil => cases h
    | cons p2 t2 =>
      rw [List.map_cons, List.map_cons] at h
      have hfst : p1.1 = p2.1 := by
        have := congrArg List.head? h
        simpa using this
      have htl : t1.map Prod.fst = t2.map Prod.fst := by
        have := congrArg List.tail h
        simpa using this
      rw [List.foldl_cons, List.foldl_cons]
      refine ih t2 (setHeader r1 p1.1 p1.2) (setHeader r2 p2.1 p2.2) ?_ htl
      rw [setHeader_keys, setHeader_keys, hfst]
      have hcond : (r1.headers.lookup p2.1).isSome
          = (r2.headers.lookup p2.1).isSome := by
        by_cases hm : p2.1 ∈ r1.headers.map Prod.fst
        · have hm2 : p2.1 ∈ r2.headers.map Prod.fst := hk ▸ hm
          obtain ⟨q1, hq1, hq1f⟩ := List.mem_map.mp hm
          obtain ⟨q2, hq2, hq2f⟩ := List.mem_map.mp hm2
          rw [show (r1.headers.lookup p2.1).isSome = true from
              List.lookup_isSome_iff.mpr ⟨q1, hq1, by simp [hq1f]⟩,
            show (r2.headers.lookup p2.1).isSome = true from
              List.lookup_isSome_iff.mpr ⟨q2, hq2, by simp [hq2f]⟩]
        · have hm2 : p2.1 ∉ r2.headers.map Prod.fst := hk ▸ hm
          have h1 : ¬ (r1.headers.lookup p2.1).isSome = true := by
            rw [List.lookup_isSome_iff]
            rintro ⟨q, hq, hbeq⟩
            exact hm (List.mem_map.mpr ⟨q, hq, (beq_iff_eq.mp hbeq).symm⟩)
          have h2 : ¬ (r2.headers.lookup p2.1).isSome = true := by
            rw [List.lookup_isSome_iff]
            rintro ⟨q, hq, hbeq⟩
            exact hm2 (List.mem_map.mpr ⟨q, hq, (beq_iff_eq.mp hbeq).symm⟩)
          rw [Bool.not_eq_true] at h1 h2
          rw [h1, h2]
      rw [hcond, hk]

/-- C2: the middleware's aggregation groups the query records by their
`sql` string: the entry stored for `s` exists iff some record has that sql
and then carries the number of such records as `count`, the sum of their
`time` fields as `total_time`, the concatenation of their `stacktrace`
lists in input order, and the first record's `is_select`; and
`n_plus_one_queries` keeps exactly the groups with `count > 1`. -/
theorem repeated_queries_grouping (qs : List QueryRecord) (s : String) :
    ((repeated_queries qs).lookup s
      = ((qs.filter (fun q => q.sql = s)).head?).map (fun q0 =>
          { count := (qs.filter (fun q => q.sql = s)).length,
            total_time :=
              ((qs.filter (fun q => q.sql = s)).map (fun q => q.time)).sum,
            stacktrace :=
              ((qs.filter (fun q => q.sql = s)).map
                (fun q => q.stacktrace)).flatten,
            is_select := q0.is_select }))
    ∧ (∀ g : QueryGroup,
        (s, g) ∈ n_plus_one_queries qs
          ↔ (s, g) ∈ repeated_queries qs ∧ 1 < g.count) := by
  refine ⟨repeated_queries_lookup qs s, ?_⟩
  intro g
  unfold n_plus_one_queries
  rw [List.mem_filter]
  simp

theorem nplus1HeaderName_prefixed (i : ℕ) :
    sqlPrefixed (nplus1HeaderName i) :=
  ⟨"_NPLUS1_" ++ (toString (i + 1) ++ "_UUID"), rfl⟩

theorem slowHeaderName_prefixed (i : ℕ) :
    sqlPrefixed (slowHeaderName i) :=
  ⟨"_SLOW_" ++ (toString (i + 1) ++ "_UUID"), rfl⟩

theorem nplus1_names_injOn : ∀ i < SQL_NPLUS1_LIMIT,
    ∀ j < SQL_NPLUS1_LIMIT, i ≠ j →
      nplus1HeaderName i ≠ nplus1HeaderName j := by decide

theorem slow_names_injOn : ∀ i < SQL_SLOW_LIMIT, ∀ j < SQL_SLOW_LIMIT,
    i ≠ j → slowHeaderName i ≠ slowHeaderName j := by decide

theorem nplus1_ne_slow : ∀ i < SQL_NPLUS1_LIMIT, ∀ j < SQL_SLOW_LIMIT,
    nplus1HeaderName i ≠ slowHeaderName j := by decide

theorem enum_map_comp {α β : Type} (l : List α) (h : ℕ → β) :
    l.enum.map (fun p => h p.1) = (List.range l.length).map h := by
  rw [← List.enum_map_fst l, List.map_map]
  rfl

theorem addedHeaderPairs_names (qs : List QueryRecord) (uuids : ℕ → String) :
    (addedHeaderPairs qs uuids).map Prod.fst
      = (List.range (sorted_n_plus_one_queries qs).length).map
          nplus1HeaderName
        ++ (List.range (slow_queries qs).length).map slowHeaderName := by
  unfold addedHeaderPairs
  rw [List.map_append, List.map_map, List.map_map]
  congr 1
  · exact enum_map_comp _ nplus1HeaderName
  · exact enum_map_comp _ slowHeaderName

theorem addedHeaderPairs_values (qs : List QueryRecord) (uuids : ℕ → String) :
    (addedHeaderPairs qs uuids).map Prod.snd
      = (List.range ((sorted_n_plus_one_queries qs).length
          + (slow_queries qs).length)).map uuids := by
  unfold addedHeaderPairs
  rw [List.map_append, List.map_map, List.map_map, List.range_add,
    List.map_append, List.map_map]
  congr 1
  · exact enum_map_comp _ uuids
  · exact enum_map_comp _ (fun j =>
      uuids ((sorted_n_plus_one_queries qs).length + j))

theorem addedHeaderPairs_prefixed (qs : List QueryRecord)
    (uuids : ℕ → String) :
    ∀ p ∈ addedHeaderPairs qs uuids, sqlPrefixed p.1 := by
  intro p hp
  unfold addedHeaderPairs at hp
  rcases List.mem_append.mp hp with h | h
  · obtain ⟨x, _, rfl⟩ := List.mem_map.mp h
    exact nplus1HeaderName_prefixed x.1
  · obtain ⟨x, _, rfl⟩ := List.mem_map.mp h
    exact slowHeaderName_prefixed x.1

theorem sorted_n_plus_one_length (qs : List QueryRecord) :
    (sorted_n_plus_one_queries qs).length
      = min SQL_NPLUS1_LIMIT (dupSqlCount qs) := by
  unfold sorted_n_plus_one_queries
  rw [List.length_take, sortDescBy_length, n_plus_one_length]

theorem slow_queries_length (qs : List QueryRecord) :
    (slow_queries qs).length = min SQL_SLOW_LIMIT qs.length := by
  unfold slow_queries
  rw [List.length_take, sortDescBy_length]

theorem addedNames_nodup (qs : List QueryRecord) (uuids : ℕ → String) :
    ((addedHeaderPairs qs uuids).map Prod.fst).Nodup := by
  rw [addedHeaderPairs_names]
  have hb1 : (sorted_n_plus_one_queries qs).length ≤ SQL_NPLUS1_LIMIT := by
    rw [sorted_n_plus_one_length]
    exact min_le_left _ _
  have hb2 : (slow_queries qs).length ≤ SQL_SLOW_LIMIT := by
    rw [slow_queries_length]
    exact min_le_left _ _
  rw [List.nodup_append]
  refine ⟨?_, ?_, ?_⟩
  · refine List.Nodup.map_on ?_ (List.nodup_range _)
    intro i hi j hj hij
    by_contra hne
    exact nplus1_names_injOn i (lt_of_lt_of_le (List.mem_range.mp hi) hb1)
      j (lt_of_lt_of_le (List.mem_range.mp hj) hb1) hne hij
  · refine List.Nodup.map_on ?_ (List.nodup_range _)
    intro i hi j hj hij
    by_contra hne
    exact slow_names_injOn i (lt_of_lt_of_le (List.mem_range.mp hi) hb2)
      j (lt_of_lt_of_le (List.mem_range.mp hj) hb2) hne hij
  · intro a ha1 ha2
    obtain ⟨i, hi, rfl⟩ := List.mem_map.mp ha1
    obtain ⟨j, hj, heq⟩ := List.mem_map.mp ha2
    exact nplus1_ne_slow i (lt_of_lt_of_le (List.mem_range.mp hi) hb1)
      j (lt_of_lt_of_le (List.mem_range.mp hj) hb2) heq.symm

theorem sorted_n_plus_one_counts_sorted (qs : List QueryRecord) :
    ((sorted_n_plus_one_queries qs).map (fun p => p.2.count)).Sorted
      (fun a b => b ≤ a) := by
  have hs := sortDescBy_sorted (fun p : String × QueryGroup => p.2.count)
    (n_plus_one_queries qs)
  have htake : (sorted_n_plus_one_queries qs).Pairwise
      (fun a b => b.2.count ≤ a.2.count) :=
    List.Pairwise.sublist (List.take_sublist _ _) hs
  exact List.Pairwise.map _ (fun a b h => h) htake

theorem slow_queries_times_sorted (qs : List QueryRecord) :
    ((slow_queries qs).map (fun q => q.time)).Sorted (fun a b => b ≤ a) := by
  have hs := sortDescBy_sorted (fun q : QueryRecord => q.time) qs
  have htake : (slow_queries qs).Pairwise (fun a b => b.time ≤ a.time) :=
    List.Pairwise.sublist (List.take_sublist _ _) hs
  exact List.Pairwise.map _ (fun a b h => h) htake

theorem sorted_n_plus_one_subset (qs : List QueryRecord) :
    ∀ p ∈ sorted_n_plus_one_queries qs, p ∈ n_plus_one_queries qs := by
  intro p hp
  unfold sorted_n_plus_one_queries at hp
  have hp2 := List.take_subset _ _ hp
  exact (sortDescBy_perm _ _).mem_iff.mp hp2

theorem sorted_n_plus_one_keys_nodup (qs : List QueryRecord) :
    ((sorted_n_plus_one_queries qs).map Prod.fst).Nodup := by
  have h0 : ((n_plus_one_queries qs).map Prod.fst).Nodup :=
    List.Nodup.sublist ((List.filter_sublist _).map Prod.fst)
      (repeated_queries_keys_nodup qs)
  have h1 : ((sortDescBy (fun p => p.2.count)
      (n_plus_one_queries qs)).map Prod.fst).Nodup :=
    List.Nodup.perm h0
      ((sortDescBy_perm (fun p => p.2.count)
        (n_plus_one_queries qs)).map Prod.fst).symm
  unfold sorted_n_plus_one_queries
  rw [List.map_take]
  exact List.Nodup.sublist (List.take_sublist _ _) h1

/-- C1: with no pre-existing `DJ_TB_SQL`-prefixed headers in the response,
`process_response` appends exactly the header pairs of the two loops:
their names are `DJ_TB_SQL_NPLUS1_1_UUID` … up to
`min SQL_NPLUS1_LIMIT` (number of distinct duplicated SQL strings), then
`DJ_TB_SQL_SLOW_1_UUID` … up to `min SQL_SLOW_LIMIT` (number of records);
the N+1 headers follow distinct duplicated SQL groups in descending count
order, and the slow headers follow the records in descending time order. -/
theorem process_response_header_shape (qs : List QueryRecord)
    (uuids : ℕ → String) (r : HttpResponse)
    (hr : ∀ p ∈ r.headers, ¬ sqlPrefixed p.1) :
    ((process_response true qs uuids r).headers
        = r.headers ++ addedHeaderPairs qs uuids)
    ∧ ((addedHeaderPairs qs uuids).map Prod.fst
        = (List.range (sorted_n_plus_one_queries qs).length).map
            nplus1HeaderName
          ++ (List.range (slow_queries qs).length).map slowHeaderName)
    ∧ (sorted_n_plus_one_queries qs).length
        = min SQL_NPLUS1_LIMIT (dupSqlCount qs)
    ∧ (slow_queries qs).length = min SQL_SLOW_LIMIT qs.length
    ∧ ((sorted_n_plus_one_queries qs).map (fun p => p.2.count)).Sorted
        (fun a b => b ≤ a)
    ∧ ((slow_queries qs).map (fun q => q.time)).Sorted (fun a b => b ≤ a)
    ∧ (∀ p ∈ sorted_n_plus_one_queries qs, p ∈ n_plus_one_queries qs)
    ∧ ((sorted_n_plus_one_queries qs).map Prod.fst).Nodup := by
  refine ⟨?_, addedHeaderPairs_names qs uuids, sorted_n_plus_one_length qs,
    slow_queries_length qs, sorted_n_plus_one_counts_sorted qs,
    slow_queries_times_sorted qs, sorted_n_plus_one_subset qs,
    sorted_n_plus_one_keys_nodup qs⟩
  show ((addedHeaderPairs qs uuids).foldl
    (fun r p => setHeader r p.1 p.2) r).headers = _
  rw [foldl_setHeader_append _ r ?_ (addedNames_nodup qs uuids)]
  intro p hp
  rw [List.lookup_eq_none_iff]
  intro pr hpr
  rw [bne_iff_ne]
  intro hcontr
  apply hr pr hpr
  rw [← hcontr]
  exact addedHeaderPairs_prefixed qs uuids p hp

/-- A concrete response with no headers, used as a witness input. -/
def emptyResponse : HttpResponse := ⟨"body", []⟩

/-- Three concrete query records (two sharing a SQL string), used as a
witness input. -/
def demoQs : List QueryRecord :=
  [⟨"SELECT 1", 1, ["a"], true⟩, ⟨"SELECT 1", 2, ["b"], true⟩,
   ⟨"SELECT 2", 3, ["c"], false⟩]

/-- A concrete uuid supply, used as a witness input. -/
def demoUuids : ℕ → String := fun i => "uuid-" ++ toString i

/-- Witness for the C1 theorem at concrete inputs. -/
theorem process_response_header_shape_witness :
    (∀ p ∈ emptyResponse.headers, ¬ sqlPrefixed p.1)
    ∧ ((process_response true demoQs demoUuids emptyResponse).headers
        = emptyResponse.headers ++ addedHeaderPairs demoQs demoUuids) :=
  ⟨fun p hp => absurd hp (List.not_mem_nil p),
   (process_response_header_shape demoQs demoUuids emptyResponse
     (fun p hp => absurd hp (List.not_mem_nil p))).1⟩

/-- C3: `process_response` returns the response it was given: without a
toolbar it is untouched; with one, the body is unchanged, every header
whose name does not start with `DJ_TB_SQL` is unchanged, and every header
of the result either was already present or carries a
`DJ_TB_SQL`-prefixed name. -/
theorem process_response_frame (qs : List QueryRecord) (uuids : ℕ → String)
    (r : HttpResponse) :
    process_response false qs uuids r = r
    ∧ (process_response true qs uuids r).body = r.body
    ∧ (∀ name, ¬ sqlPrefixed name →
        (process_response true qs uuids r).headers.lookup name
          = r.headers.lookup name)
    ∧ (∀ p ∈ (process_response true qs uuids r).headers,
        p ∈ r.headers ∨ sqlPrefixed p.1) := by
  refine ⟨rfl, ?_, ?_, ?_⟩
  · exact foldl_setHeader_body _ r
  · intro name hname
    refine foldl_setHeader_lookup_ne _ r name ?_
    intro p hp hcontr
    apply hname
    rw [hcontr]
    exact addedHeaderPairs_prefixed qs uuids p hp
  · intro p hp
    rcases foldl_setHeader_mem _ r p hp with hmem | ⟨p2, hp2, hfst⟩
    · exact Or.inl hmem
    · right
      rw [hfst]
      exact addedHeaderPairs_prefixed qs uuids p2 hp2

/-- Witness for the C3 theorem: the non-prefixed name "A" keeps its lookup
value at concrete inputs. -/
theorem process_response_frame_witness :
    ¬ sqlPrefixed "A"
    ∧ (process_response true demoQs demoUuids emptyResponse).headers.lookup
        "A" = emptyResponse.headers.lookup "A" := by
  have hA : ¬ sqlPrefixed "A" := by
    rintro ⟨t, ht⟩
    have hl := congrArg String.length ht
    rw [String.length_append] at hl
    have h1 : String.length "A" = 1 := rfl
    have h2 : HEADER_PREFIX.length = 9 := rfl
    rw [h1, h2] at hl
    omega
  exact ⟨hA,
    (process_response_frame demoQs demoUuids emptyResponse).2.2.1 "A" hA⟩

/-- C8: for two runs on the same stats and response, the header names of
the two results coincide (the names produced by the loops do not depend on
the generated UUID values), while the header values are the successive
fresh values of the run's own uuid stream, one per emitted header. -/
theorem process_response_uuid_independence (qs : List QueryRecord)
    (uuids1 uuids2 : ℕ → String) (r : HttpResponse) :
    ((process_response true qs uuids1 r).headers.map Prod.fst
        = (process_response true qs uuids2 r).headers.map Prod.fst)
    ∧ ((addedHeaderPairs qs uuids1).map Prod.fst
        = (addedHeaderPairs qs uuids2).map Prod.fst)
    ∧ ((addedHeaderPairs qs uuids1).map Prod.snd
        = (List.range ((sorted_n_plus_one_queries qs).length
            + (slow_queries qs).length)).map uuids1) := by
  have hnames : (addedHeaderPairs qs uuids1).map Prod.fst
      = (addedHeaderPairs qs uuids2).map Prod.fst := by
    rw [addedHeaderPairs_names, addedHeaderPairs_names]
  refine ⟨?_, hnames, addedHeaderPairs_values qs uuids1⟩
  exact foldl_setHeader_keys_congr _ _ r r rfl hnames

end Middleware
